import Mathlib

/-!
Verification of the RiseWell wake-verification engine.

This file gives a shallow embedding, in Lean 4, of the algorithmic core of
the RiseWell alarm application and proves the properties stated about it:

* `src/services/ScoringService.ts` — the wakefulness scoring function;
* `src/services/PPGService.ts` — the PPG heart-rate signal processor
  (rolling sample buffer, moving-average smoothing, peak detection);
* `src/screens/AlarmRingScreen.tsx` — the difficulty policy and the
  snooze/dismiss orchestration (modelled as a state-transition system,
  with JavaScript impurities such as `Date.now()` and fresh-id generation
  supplied through an explicit environment record);
* `src/services/StorageService.ts` — the flash-card save operation.

JavaScript numbers are modelled as rationals (`ℚ`); `Math.floor` is the
rational floor into `ℤ`; `Math.round x` is `⌊x + 1/2⌋`, which agrees with
JavaScript on every non-negative argument and on every argument produced
in this code base.  Counts are modelled as `ℕ`.
-/

namespace RiseWell

/-- JavaScript `Math.round` on the values arising here: `⌊x + 1/2⌋`. -/
def jsRound (q : ℚ) : ℤ := ⌊q + 1/2⌋

/-! ## ScoringService (src/services/ScoringService.ts) -/

/-- Score components returned by `calculateWakefulnessScore`. -/
structure ScoreComponents where
  puzzleScore : ℤ
  snoozeScore : ℤ
  consistencyScore : ℤ
  flashMemoryScore : ℤ
  total : ℤ
deriving DecidableEq

/-- Embedding of `calculatePuzzleScore` from ScoringService.ts: base 50, time penalty of
5 points per 10 s over 20 s (capped at 25), 10 points per error, floored
at 0. -/
def calculatePuzzleScore (timeMs : ℚ) (errors : ℕ) : ℤ :=
  let timeSeconds := timeMs / 1000
  let score : ℤ := if 20 < timeSeconds then
      50 - min (⌊(timeSeconds - 20) / 10⌋ * 5) 25
    else 50
  max 0 (score - errors * 10)

/-- Embedding of `calculateSnoozeScore` from ScoringService.ts. -/
def calculateSnoozeScore (snoozeCount : ℕ) : ℤ :=
  match snoozeCount with
  | 0 => 30
  | 1 => 20
  | 2 => 10
  | _ => 0

/-- Embedding of `calculateConsistencyScore` from ScoringService.ts. -/
def calculateConsistencyScore (wakeTimeDeltaMinutes : ℚ) : ℤ :=
  if |wakeTimeDeltaMinutes| ≤ 10 then 20
  else if |wakeTimeDeltaMinutes| ≤ 20 then 10
  else 0

/-- Embedding of `calculateFlashMemoryScore` from ScoringService.ts: `null` (disabled)
gives 0, correct gives 10, incorrect gives 0. -/
def calculateFlashMemoryScore (correct : Option Bool) : ℤ :=
  match correct with
  | none => 0
  | some b => if b then 10 else 0

/-- Embedding of `calculateWakefulnessScore` from ScoringService.ts: the four components
plus their sum capped at 100. -/
def calculateWakefulnessScore (puzzleTimeMs : ℚ) (puzzleErrors : ℕ)
    (snoozeCount : ℕ) (wakeTimeDeltaMinutes : ℚ)
    (flashMemoryCorrect : Option Bool) : ScoreComponents :=
  let puzzleScore := calculatePuzzleScore puzzleTimeMs puzzleErrors
  let snoozeScore := calculateSnoozeScore snoozeCount
  let consistencyScore := calculateConsistencyScore wakeTimeDeltaMinutes
  let flashMemoryScore := calculateFlashMemoryScore flashMemoryCorrect
  { puzzleScore := puzzleScore
    snoozeScore := snoozeScore
    consistencyScore := consistencyScore
    flashMemoryScore := flashMemoryScore
    total := min (puzzleScore + snoozeScore + consistencyScore + flashMemoryScore) 100 }

/-- The puzzle component as worded in the specification: start at 50; if
`puzzleTimeMs > 20000` subtract `floor((puzzleTimeMs/1000 − 20)/10) × 5`
capped at 25; then subtract 10 per error; floored at 0.  Stated separately
from `calculatePuzzleScore` so that the two can be compared. -/
def puzzleScoreSpec (puzzleTimeMs : ℚ) (errors : ℕ) : ℤ :=
  max 0 ((if 20000 < puzzleTimeMs then
      50 - min (⌊(puzzleTimeMs / 1000 - 20) / 10⌋ * 5) 25
    else 50) - errors * 10)

/-! ## Difficulty policy (src/screens/AlarmRingScreen.tsx) -/

inductive PuzzleMode where
  | auto
  | manual
deriving DecidableEq

inductive ScheduleType where
  | workdays
  | weekends
  | daily
  | custom
deriving DecidableEq

/-- The `Alarm` record from the type definitions. -/
structure Alarm where
  id : String
  time : String
  enabled : Bool
  schedule : ScheduleType
  customDays : List ℕ
  soundUri : String
  snoozeDuration : ℚ
  puzzleMode : PuzzleMode
  puzzleDifficulty : ℕ
  heartRateEnabled : Bool
  flashMemoryEnabled : Bool
  label : String
deriving DecidableEq

/-- Embedding of `getDifficultyForSnooze` from AlarmRingScreen.tsx (a closure over the
component's `snoozeCount` state, written here as an explicit argument). -/
def getDifficultyForSnooze (snoozeCount : ℕ) : ℕ :=
  if snoozeCount = 0 then 1
  else if snoozeCount = 1 then 1
  else if snoozeCount = 2 then 2
  else min 4 snoozeCount

/-- Embedding of `getDifficultyForDismiss` from AlarmRingScreen.tsx (a closure over the
component's `alarm` and `snoozeCount` state, written here with explicit
arguments). -/
def getDifficultyForDismiss (alarm : Option Alarm) (snoozeCount : ℕ) : ℕ :=
  match alarm with
  | none => 2
  | some a =>
    let baseDifficulty := if a.puzzleMode = PuzzleMode.auto then 2 else a.puzzleDifficulty
    min 4 (baseDifficulty + snoozeCount / 2)

/-! ## PPGService (src/services/PPGService.ts) -/

/-- The module-level mutable state of PPGService.ts: the rolling red
intensity buffer plus the (vestigial) peak-tracking variables. -/
structure PPGState where
  redIntensityBuffer : List ℚ
  lastPeakTime : ℚ
  beatIntervals : List ℚ
deriving DecidableEq

/-- Embedding of `resetMeasurement` from PPGService.ts: clears buffer and peak state. -/
def resetMeasurement (_s : PPGState) : PPGState :=
  { redIntensityBuffer := [], lastPeakTime := 0, beatIntervals := [] }

/-- JavaScript `Math.max(...data)` for the nonempty lists this code applies
it to. -/
def listMax (l : List ℚ) : ℚ := l.foldl max (l.headD 0)

/-- Embedding of `calculateThreshold` from PPGService.ts: 60% of the way from the mean
to the maximum. -/
def calculateThreshold (data : List ℚ) : ℚ :=
  let mean := data.sum / (data.length : ℚ)
  let mx := listMax data
  mean + (mx - mean) * (3/5)

/-- Embedding of `applyMovingAverage` from PPGService.ts: symmetric window of
`windowSize` samples on each side, truncated at the ends. -/
def applyMovingAverage (data : List ℚ) (windowSize : ℕ) : List ℚ :=
  (List.range data.length).map (fun i =>
    let lo := i - windowSize
    let hi := min (data.length - 1) (i + windowSize)
    let idxs := List.range' lo (hi + 1 - lo)
    (idxs.map (fun j => data.getD j 0)).sum / (idxs.length : ℚ))

/-- The local-maximum-and-threshold test in `detectPeaks`, in the order
the source writes it: `data[i]` strictly above both neighbours on each
side and above the adaptive threshold. -/
def isPeakAt (data : List ℚ) (threshold : ℚ) (i : ℕ) : Bool :=
  decide (data.getD (i - 1) 0 < data.getD i 0) &&
  decide (data.getD (i - 2) 0 < data.getD i 0) &&
  decide (data.getD (i + 1) 0 < data.getD i 0) &&
  decide (data.getD (i + 2) 0 < data.getD i 0) &&
  decide (threshold < data.getD i 0)

/-- The minimum-distance test in `detectPeaks`: the candidate is accepted
when no peak was accepted yet, or when it lies strictly more than 15
samples after the previously accepted peak (`i - peaks[last] > 15`). -/
def distOk (peaks : List ℕ) (i : ℕ) : Bool :=
  match peaks.getLast? with
  | none => true
  | some p => decide (p + 15 < i)

/-- One iteration of the `detectPeaks` scan loop. -/
def detectStep (data : List ℚ) (threshold : ℚ) (peaks : List ℕ) (i : ℕ) : List ℕ :=
  if isPeakAt data threshold i && distOk peaks i then peaks ++ [i] else peaks

/-- Embedding of `detectPeaks` from PPGService.ts: scan indices `2 ≤ i < len − 2`,
accumulating accepted peak indices. -/
def detectPeaks (data : List ℚ) : List ℕ :=
  (List.range' 2 (data.length - 4)).foldl (detectStep data (calculateThreshold data)) []

/-- The result record of `processRedIntensity`.  The `confidence` output,
computed in the source with a floating-point square root, is not modelled;
no stated property concerns it. -/
structure PPGResult where
  heartRate : Option ℤ
  progress : ℚ
deriving DecidableEq

/-- Embedding of `processRedIntensity` from PPGService.ts: append the sample, report
progress towards the 20-sample minimum, trim the buffer to the most
recent 240 samples, smooth, detect peaks, and convert the mean inter-peak
interval to BPM, rejecting estimates outside 40–200 BPM. -/
def processRedIntensity (s : PPGState) (intensity : ℚ) (_timestamp : ℚ) :
    PPGState × PPGResult :=
  let buf0 := s.redIntensityBuffer ++ [intensity]
  let progress := min 100 ((buf0.length : ℚ) / 20 * 100)
  if buf0.length < 20 then
    ({ s with redIntensityBuffer := buf0 }, { heartRate := none, progress := progress })
  else
    let buf := if 240 < buf0.length then buf0.drop (buf0.length - 240) else buf0
    let s' := { s with redIntensityBuffer := buf }
    let smoothed := applyMovingAverage buf 5
    let peaks := detectPeaks smoothed
    if 2 ≤ peaks.length then
      let intervals := List.zipWith (fun a b => (b : ℚ) - (a : ℚ)) peaks peaks.tail
      let avgInterval := intervals.sum / (intervals.length : ℚ)
      let secondsPerBeat := avgInterval / 30
      let bpm := jsRound (60 / secondsPerBeat)
      if 40 ≤ bpm ∧ bpm ≤ 200 then
        (s', { heartRate := some bpm, progress := 100 })
      else
        (s', { heartRate := none, progress := progress })
    else
      (s', { heartRate := none, progress := progress })

/-- A call into the PPG module: either `resetMeasurement` or
`processRedIntensity` with a sample. -/
inductive PPGCall where
  | reset
  | ingest (intensity : ℚ) (timestamp : ℚ)

/-- Effect of one PPG call on the module state. -/
def applyPPGCall (s : PPGState) : PPGCall → PPGState
  | PPGCall.reset => resetMeasurement s
  | PPGCall.ingest i t => (processRedIntensity s i t).1

/-- Run a sequence of PPG calls from a given module state. -/
def runPPG (s : PPGState) : List PPGCall → PPGState
  | [] => s
  | c :: rest => runPPG (applyPPGCall s c) rest

/-! ## StorageService (src/services/StorageService.ts) -/

/-- The `FlashCard` record from the type definitions. -/
structure FlashCard where
  id : String
  question : String
  answer : String
  createdAt : String
deriving DecidableEq

/-- Embedding of `saveFlashCard` from StorageService.ts, as a function of the stored
card list.  An existing id is updated in place; a new id is appended
unless 100 cards are already stored, in which case the function throws
before any write, leaving the stored list unchanged.  `Except.ok` carries
the list written back to storage; `Except.error` means no write happened. -/
def saveFlashCard (cards : List FlashCard) (card : FlashCard) :
    Except String (List FlashCard) :=
  match cards.findIdx? (fun c => c.id = card.id) with
  | some index => Except.ok (cards.set index card)
  | none =>
    if 100 ≤ cards.length then Except.error "Maximum of 100 flash cards allowed"
    else Except.ok (cards ++ [card])

/-- Embedding of `deleteFlashCard` from StorageService.ts. -/
def deleteFlashCard (cards : List FlashCard) (id : String) : List FlashCard :=
  cards.filter (fun c => c.id ≠ id)

/-- The `WakeRecord` written by `completeDismiss`. -/
structure WakeRecord where
  id : String
  alarmId : String
  date : String
  score : ℤ
  snoozeCount : ℕ
  puzzleTimeMs : ℚ
  puzzleErrors : ℕ
  flashMemoryCorrect : Option Bool
  wakeTimeDelta : ℤ
deriving DecidableEq

/-! ## AlarmRingScreen orchestration (src/screens/AlarmRingScreen.tsx)

The ring screen is a state-transition system: component state
(`snoozeCount`, `isProcessing`, the completion flags), the refs
(`puzzleStartTime`, `puzzleErrors`), the observable effects on the
collaborators (wake-record storage, snooze scheduling, notification
cancellation, alarm re-arming, vibration), and the current navigation
target, which records which gate is in flight.  The `onComplete` closures
passed to the gate screens capture the enclosing `hrDone` / `flashDone`
arguments, so the navigation targets carry those captured values. -/

/-- Where the navigation stack currently points for this ringing episode:
still on the ring screen, inside one of the gate screens, or back home
(episode over). -/
inductive NavTarget where
  | ring
  | puzzleSnooze (difficulty : ℕ)
  | puzzleDismiss (difficulty : ℕ)
  | heartRate (flashDone : Option Bool)
  | flashQuiz (hrDone : Bool)
  | home
deriving DecidableEq

/-- Full observable state of one ringing episode. -/
structure RingState where
  alarm : Option Alarm
  snoozeCount : ℕ
  isProcessing : Bool
  puzzleCompleted : Bool
  heartRateCompleted : Bool
  flashCardCompleted : Bool
  flashCardCorrect : Option Bool
  puzzleStartTime : ℚ
  puzzleErrors : ℕ
  vibrating : Bool
  flashCards : List FlashCard
  wakeRecords : List WakeRecord
  scheduledSnoozes : List (String × ℚ)
  cancelledAlarms : List String
  rearmedAlarms : List String
  nav : NavTarget
deriving DecidableEq

/-- The impure inputs of the ring screen: `Date.now()`, the epoch instant
of today at the alarm's scheduled HH:mm (`alarmTime.getTime()`),
`generateId()`, and `new Date().toISOString()`. -/
structure Env where
  now : ℚ
  alarmTimeMs : ℚ
  freshId : String
  dateIso : String

/-- Embedding of `handleSnooze` from AlarmRingScreen.tsx: no-op unless an alarm is
loaded and no gate is in flight; otherwise set the in-flight guard, stop
vibration, reset the puzzle refs and navigate to the snooze puzzle at the
snooze difficulty. -/
def handleSnooze (env : Env) (s : RingState) : RingState :=
  match s.alarm with
  | none => s
  | some _ =>
    if s.isProcessing then s
    else
      { s with isProcessing := true, vibrating := false,
               puzzleStartTime := env.now, puzzleErrors := 0,
               nav := NavTarget.puzzleSnooze (getDifficultyForSnooze s.snoozeCount) }

/-- Embedding of `completeSnooze` from AlarmRingScreen.tsx: increment the snooze count,
schedule the snooze reminder for the configured duration, navigate home. -/
def completeSnooze (s : RingState) : RingState :=
  match s.alarm with
  | none => s
  | some a =>
    { s with snoozeCount := s.snoozeCount + 1,
             scheduledSnoozes := s.scheduledSnoozes ++ [(a.id, a.snoozeDuration)],
             nav := NavTarget.home }

/-- Embedding of `handleDismiss` from AlarmRingScreen.tsx: no-op unless an alarm is
loaded and no gate is in flight; otherwise set the in-flight guard, stop
vibration, reset the puzzle refs and navigate to the dismiss puzzle at
the dismiss difficulty. -/
def handleDismiss (env : Env) (s : RingState) : RingState :=
  match s.alarm with
  | none => s
  | some _ =>
    if s.isProcessing then s
    else
      { s with isProcessing := true, vibrating := false,
               puzzleStartTime := env.now, puzzleErrors := 0,
               nav := NavTarget.puzzleDismiss (getDifficultyForDismiss s.alarm s.snoozeCount) }

/-- Embedding of `completeDismiss` from AlarmRingScreen.tsx: compute the puzzle time
and the wake-time delta, score the encounter, append the wake record,
cancel the active notification, re-arm the alarm, navigate home. -/
def completeDismiss (env : Env) (s : RingState) (flashMemoryCorrect : Option Bool) :
    RingState :=
  match s.alarm with
  | none => s
  | some a =>
    let puzzleTimeMs := env.now - s.puzzleStartTime
    let wakeTimeDelta := jsRound ((env.now - env.alarmTimeMs) / 60000)
    let score := calculateWakefulnessScore puzzleTimeMs s.puzzleErrors
      s.snoozeCount (wakeTimeDelta : ℚ) flashMemoryCorrect
    { s with
      wakeRecords := s.wakeRecords ++
        [{ id := env.freshId, alarmId := a.id, date := env.dateIso,
           score := score.total, snoozeCount := s.snoozeCount,
           puzzleTimeMs := puzzleTimeMs, puzzleErrors := s.puzzleErrors,
           flashMemoryCorrect := flashMemoryCorrect, wakeTimeDelta := wakeTimeDelta }],
      cancelledAlarms := s.cancelledAlarms ++ [a.id],
      rearmedAlarms := s.rearmedAlarms ++ [a.id],
      nav := NavTarget.home }

/-- Embedding of `checkNextDismissStep` from AlarmRingScreen.tsx: enter the heart-rate
gate if enabled and not yet done; else enter the flash-card gate if
enabled, unanswered and cards exist; else finalize the dismiss. -/
def checkNextDismissStep (env : Env) (s : RingState) (_puzzleDone : Bool)
    (hrDone : Bool) (flashDone : Option Bool) : RingState :=
  match s.alarm with
  | none => s
  | some a =>
    if a.heartRateEnabled = true ∧ hrDone = false then
      { s with nav := NavTarget.heartRate flashDone }
    else if a.flashMemoryEnabled = true ∧ flashDone = none ∧ 0 < s.flashCards.length then
      { s with nav := NavTarget.flashQuiz hrDone }
    else
      completeDismiss env s flashDone

/-- The `onComplete` callback a gate screen invokes, applied to the state
in which it fires; `flashAnswer` is the correctness outcome the flash-card
quiz would report.  On `ring`/`home` there is no gate in flight and
nothing happens. -/
def resolveGate (env : Env) (flashAnswer : Bool) (s : RingState) : RingState :=
  match s.nav with
  | NavTarget.puzzleSnooze _ => completeSnooze s
  | NavTarget.puzzleDismiss _ =>
    checkNextDismissStep env { s with puzzleCompleted := true } true false none
  | NavTarget.heartRate flashDone =>
    checkNextDismissStep env { s with heartRateCompleted := true } true true flashDone
  | NavTarget.flashQuiz hrDone =>
    checkNextDismissStep env
      { s with flashCardCompleted := true, flashCardCorrect := some flashAnswer }
      true hrDone (some flashAnswer)
  | _ => s

/-- A concrete environment for witnesses. -/
def env0 : Env :=
  { now := 1000000
    alarmTimeMs := 400000
    freshId := "w1"
    dateIso := "2026-01-01T07:10:00.000Z" }

/-- The freshly-initialized ringing episode for a loaded alarm:
snooze count 0, no gate in flight, empty collaborator logs. -/
def ringStart (a : Alarm) : RingState :=
  { alarm := some a
    snoozeCount := 0
    isProcessing := false
    puzzleCompleted := false
    heartRateCompleted := false
    flashCardCompleted := false
    flashCardCorrect := none
    puzzleStartTime := 0
    puzzleErrors := 0
    vibrating := true
    flashCards := []
    wakeRecords := []
    scheduledSnoozes := []
    cancelledAlarms := []
    rearmedAlarms := []
    nav := NavTarget.ring }

/-! ## Theorems: scoring -/

lemma calculatePuzzleScore_nonneg (timeMs : ℚ) (errors : ℕ) :
    0 ≤ calculatePuzzleScore timeMs errors :=
  le_max_left 0 _

lemma timePenalty_nonneg {timeMs : ℚ} (h : 20 < timeMs / 1000) :
    0 ≤ min (⌊(timeMs / 1000 - 20) / 10⌋ * 5) 25 := by
  refine le_min (mul_nonneg ?_ (by norm_num)) (by norm_num)
  exact Int.floor_nonneg.mpr (div_nonneg (by linarith) (by norm_num))

lemma calculatePuzzleScore_le (timeMs : ℚ) (errors : ℕ) :
    calculatePuzzleScore timeMs errors ≤ 50 := by
  unfold calculatePuzzleScore
  refine max_le (by norm_num) ?_
  have he : (0 : ℤ) ≤ errors * 10 := by positivity
  split_ifs with h
  · have := timePenalty_nonneg h
    omega
  · omega

lemma calculateSnoozeScore_bounds (n : ℕ) :
    0 ≤ calculateSnoozeScore n ∧ calculateSnoozeScore n ≤ 30 := by
  rcases n with _ | _ | _ | n <;> simp [calculateSnoozeScore]

lemma calculateConsistencyScore_bounds (d : ℚ) :
    0 ≤ calculateConsistencyScore d ∧ calculateConsistencyScore d ≤ 20 := by
  unfold calculateConsistencyScore
  split_ifs <;> norm_num

lemma calculateFlashMemoryScore_bounds (c : Option Bool) :
    0 ≤ calculateFlashMemoryScore c ∧ calculateFlashMemoryScore c ≤ 10 := by
  rcases c with _ | b
  · simp [calculateFlashMemoryScore]
  · rcases b <;> simp [calculateFlashMemoryScore]

/-- C1: for every puzzle time, every non-negative error and snooze count,
every wake-time delta (negative included) and every recall outcome
(null, true or false), the `total` returned by
`calculateWakefulnessScore` lies in the closed range [0, 100]. -/
theorem calculateWakefulnessScore_total_in_range (puzzleTimeMs : ℚ)
    (puzzleErrors snoozeCount : ℕ) (wakeTimeDeltaMinutes : ℚ)
    (recallCorrect : Option Bool) :
    0 ≤ (calculateWakefulnessScore puzzleTimeMs puzzleErrors snoozeCount
          wakeTimeDeltaMinutes recallCorrect).total ∧
    (calculateWakefulnessScore puzzleTimeMs puzzleErrors snoozeCount
          wakeTimeDeltaMinutes recallCorrect).total ≤ 100 := by
  have hp := calculatePuzzleScore_nonneg puzzleTimeMs puzzleErrors
  have hs := calculateSnoozeScore_bounds snoozeCount
  have hc := calculateConsistencyScore_bounds wakeTimeDeltaMinutes
  have hf := calculateFlashMemoryScore_bounds recallCorrect
  constructor
  · refine le_min ?_ (by norm_num)
    have := hs.1; have := hc.1; have := hf.1
    omega
  · exact min_le_right _ 100

/-- C4: the puzzle component of `calculateWakefulnessScore` equals the
specified formula (base 50; if `puzzleTimeMs > 20000`, subtract
`floor((puzzleTimeMs/1000 − 20)/10) × 5` capped at 25; then 10 per error;
floored at 0), and the scenario `puzzleTimeMs = 45000`, `errors = 2`,
`snoozeCount = 3`, `delta = 25`, `recall = false` yields components
puzzle 20, snooze 0, consistency 0, recall 0 and total 20. -/
theorem puzzle_component_matches_spec :
    (∀ (t : ℚ) (e n : ℕ) (d : ℚ) (c : Option Bool),
        (calculateWakefulnessScore t e n d c).puzzleScore = puzzleScoreSpec t e) ∧
    calculateWakefulnessScore 45000 2 3 25 (some false) =
      { puzzleScore := 20, snoozeScore := 0, consistencyScore := 0,
        flashMemoryScore := 0, total := 20 } := by
  constructor
  · intro t e n d c
    show calculatePuzzleScore t e = puzzleScoreSpec t e
    have h : ((20 : ℚ) < t / 1000) ↔ ((20000 : ℚ) < t) := by
      rw [lt_div_iff₀ (by norm_num : (0 : ℚ) < 1000)]; norm_num
    simp only [calculatePuzzleScore, puzzleScoreSpec, h]
  · simp only [calculateWakefulnessScore]
    norm_num [calculatePuzzleScore, calculateSnoozeScore, calculateConsistencyScore,
      calculateFlashMemoryScore]

/-! ## Theorems: difficulty policy -/

/-- C5: in auto puzzle mode (dismiss base difficulty 2), for every snooze
count the dismiss difficulty is at least the snooze difficulty. -/
theorem dismiss_ge_snooze (a : Alarm) (n : ℕ)
    (h : a.puzzleMode = PuzzleMode.auto) :
    getDifficultyForSnooze n ≤ getDifficultyForDismiss (some a) n := by
  simp only [getDifficultyForSnooze, getDifficultyForDismiss, h, if_pos]
  split_ifs <;> omega

/-- A concrete auto-mode alarm used by witnesses. -/
def alarmAuto : Alarm :=
  { id := "a1"
    time := "07:00"
    enabled := true
    schedule := ScheduleType.daily
    customDays := []
    soundUri := "default"
    snoozeDuration := 5
    puzzleMode := PuzzleMode.auto
    puzzleDifficulty := 2
    heartRateEnabled := false
    flashMemoryEnabled := false
    label := "" }

/-- A concrete manual-mode alarm of difficulty 3 used by witnesses. -/
def alarmManual3 : Alarm :=
  { id := "a2"
    time := "08:30"
    enabled := true
    schedule := ScheduleType.daily
    customDays := []
    soundUri := "default"
    snoozeDuration := 10
    puzzleMode := PuzzleMode.manual
    puzzleDifficulty := 3
    heartRateEnabled := true
    flashMemoryEnabled := true
    label := "" }

/-- Witness for C5 at a concrete auto-mode alarm and snooze count 3. -/
theorem dismiss_ge_snooze_witness :
    alarmAuto.puzzleMode = PuzzleMode.auto ∧
    getDifficultyForSnooze 3 ≤ getDifficultyForDismiss (some alarmAuto) 3 :=
  ⟨rfl, dismiss_ge_snooze alarmAuto 3 rfl⟩

/-- C6: for every snooze count and every alarm whose manual difficulty is
in [1,4], both the snooze and the dismiss difficulty are in [1,4]. -/
theorem difficulty_in_range (a : Alarm) (n : ℕ)
    (h1 : 1 ≤ a.puzzleDifficulty) (h4 : a.puzzleDifficulty ≤ 4) :
    1 ≤ getDifficultyForSnooze n ∧ getDifficultyForSnooze n ≤ 4 ∧
    1 ≤ getDifficultyForDismiss (some a) n ∧
    getDifficultyForDismiss (some a) n ≤ 4 := by
  simp only [getDifficultyForSnooze, getDifficultyForDismiss]
  split_ifs <;> simp_all <;> omega

/-- Witness for C6 at a concrete manual-mode alarm of difficulty 3 and
snooze count 7. -/
theorem difficulty_in_range_witness :
    1 ≤ alarmManual3.puzzleDifficulty ∧
    (1 ≤ getDifficultyForSnooze 7 ∧ getDifficultyForSnooze 7 ≤ 4 ∧
     1 ≤ getDifficultyForDismiss (some alarmManual3) 7 ∧
     getDifficultyForDismiss (some alarmManual3) 7 ≤ 4) :=
  ⟨by norm_num [alarmManual3],
   difficulty_in_range alarmManual3 7 (by norm_num [alarmManual3]) (by norm_num [alarmManual3])⟩

/-! ## Theorems: PPG signal processor -/

/-- C7: any ingest call for which the buffer, after appending the new
sample, still holds fewer than 20 samples returns a null heart rate and a
progress equal to `min(100, bufferLen/20*100)`, strictly below 100. -/
theorem few_samples_null_hr (s : PPGState) (intensity timestamp : ℚ)
    (h : s.redIntensityBuffer.length + 1 < 20) :
    (processRedIntensity s intensity timestamp).2.heartRate = none ∧
    (processRedIntensity s intensity timestamp).2.progress =
      min 100 (((s.redIntensityBuffer.length : ℚ) + 1) / 20 * 100) ∧
    (processRedIntensity s intensity timestamp).2.progress < 100 := by
  have hlen : (s.redIntensityBuffer ++ [intensity]).length =
      s.redIntensityBuffer.length + 1 := by simp
  have hlt : (s.redIntensityBuffer ++ [intensity]).length < 20 := by omega
  have hcast : ((s.redIntensityBuffer ++ [intensity]).length : ℚ) =
      (s.redIntensityBuffer.length : ℚ) + 1 := by
    rw [hlen]; push_cast; ring
  have hsmall : ((s.redIntensityBuffer.length : ℚ) + 1) / 20 * 100 < 100 := by
    have h19 : ((s.redIntensityBuffer.length : ℚ) + 1) < 20 := by
      have : (s.redIntensityBuffer.length : ℚ) + 1 = ((s.redIntensityBuffer.length + 1 : ℕ) : ℚ) := by
        push_cast; ring
      rw [this]
      exact_mod_cast h
    rw [div_mul_eq_mul_div, div_lt_iff₀ (by norm_num : (0 : ℚ) < 20)]
    linarith
  simp only [processRedIntensity, if_pos hlt, hcast]
  refine ⟨by trivial, by trivial, ?_⟩
  calc min (100 : ℚ) (((s.redIntensityBuffer.length : ℚ) + 1) / 20 * 100)
      ≤ ((s.redIntensityBuffer.length : ℚ) + 1) / 20 * 100 := min_le_right _ _
    _ < 100 := hsmall

/-- Witness for C7: the very first sample after a reset. -/
theorem few_samples_null_hr_witness :
    (PPGState.mk [] 0 []).redIntensityBuffer.length + 1 < 20 ∧
    ((processRedIntensity (PPGState.mk [] 0 []) 5 0).2.heartRate = none ∧
     (processRedIntensity (PPGState.mk [] 0 []) 5 0).2.progress =
       min 100 ((((PPGState.mk [] 0 []).redIntensityBuffer.length : ℚ) + 1) / 20 * 100) ∧
     (processRedIntensity (PPGState.mk [] 0 []) 5 0).2.progress < 100) :=
  ⟨by norm_num, few_samples_null_hr (PPGState.mk [] 0 []) 5 0 (by norm_num)⟩

set_option maxRecDepth 4000 in
lemma processRedIntensity_buffer_eq (s : PPGState) (intensity timestamp : ℚ) :
    (processRedIntensity s intensity timestamp).1.redIntensityBuffer =
      (if 240 < (s.redIntensityBuffer ++ [intensity]).length
       then (s.redIntensityBuffer ++ [intensity]).drop
              ((s.redIntensityBuffer ++ [intensity]).length - 240)
       else s.redIntensityBuffer ++ [intensity]) := by
  simp only [processRedIntensity]
  split_ifs <;> first | rfl | omega

lemma processRedIntensity_length_le (s : PPGState) (intensity timestamp : ℚ)
    (h : s.redIntensityBuffer.length ≤ 240) :
    (processRedIntensity s intensity timestamp).1.redIntensityBuffer.length ≤ 240 := by
  rw [processRedIntensity_buffer_eq]
  split_ifs with h1 <;> simp [List.length_drop] <;> simp at h1 ⊢ <;> omega

lemma runPPG_length_le (calls : List PPGCall) :
    ∀ s : PPGState, s.redIntensityBuffer.length ≤ 240 →
      (runPPG s calls).redIntensityBuffer.length ≤ 240 := by
  induction calls with
  | nil => intro s h; exact h
  | cons c rest ih =>
    intro s h
    show (runPPG (applyPPGCall s c) rest).redIntensityBuffer.length ≤ 240
    apply ih
    cases c with
    | reset => simp [applyPPGCall, resetMeasurement]
    | ingest i t => exact processRedIntensity_length_le s i t h

/-- C8: starting from the initial module state, the PPG sample buffer
never exceeds 240 samples after any sequence of `resetMeasurement` and
`processRedIntensity` calls; when appending a sample pushes the buffer
past 240, the oldest samples are dropped and only the most recent 240
are kept; and `resetMeasurement` clears the buffer and the peak-tracking
state. -/
theorem ppg_buffer_invariant :
    (∀ calls : List PPGCall,
       (runPPG (PPGState.mk [] 0 []) calls).redIntensityBuffer.length ≤ 240) ∧
    (∀ (s : PPGState) (intensity timestamp : ℚ),
       (processRedIntensity s intensity timestamp).1.redIntensityBuffer =
         (if 240 < (s.redIntensityBuffer ++ [intensity]).length
          then (s.redIntensityBuffer ++ [intensity]).drop
                 ((s.redIntensityBuffer ++ [intensity]).length - 240)
          else s.redIntensityBuffer ++ [intensity])) ∧
    (∀ s : PPGState, (resetMeasurement s).redIntensityBuffer = [] ∧
       (resetMeasurement s).lastPeakTime = 0 ∧
       (resetMeasurement s).beatIntervals = []) := by
  refine ⟨fun calls => runPPG_length_le calls _ (by simp), ?_, ?_⟩
  · exact processRedIntensity_buffer_eq
  · intro s; exact ⟨rfl, rfl, rfl⟩

lemma foldl_detectStep_append (data : List ℚ) (t : ℚ) :
    ∀ l acc : List ℕ, ∃ s : List ℕ,
      l.foldl (detectStep data t) acc = acc ++ s ∧ ∀ j ∈ s, j ∈ l := by
  intro l
  induction l with
  | nil => intro acc; exact ⟨[], by simp⟩
  | cons i l ih =>
    intro acc
    rw [List.foldl_cons]
    by_cases hc : (isPeakAt data t i && distOk acc i) = true
    · have hd : detectStep data t acc i = acc ++ [i] := by
        simp only [detectStep]; rw [if_pos hc]
      obtain ⟨s, hs, hmem⟩ := ih (acc ++ [i])
      refine ⟨i :: s, ?_, ?_⟩
      · rw [hd, hs]; simp
      · intro j hj
        rcases List.mem_cons.mp hj with h | h
        · exact h ▸ List.mem_cons_self i l
        · exact List.mem_cons_of_mem i (hmem j h)
    · have hd : detectStep data t acc i = acc := by
        simp only [detectStep]; rw [if_neg hc]
      obtain ⟨s, hs, hmem⟩ := ih acc
      refine ⟨s, ?_, fun j hj => List.mem_cons_of_mem i (hmem j hj)⟩
      rw [hd, hs]

lemma foldl_detectStep_filter (data : List ℚ) (t : ℚ) (i : ℕ) (l acc : List ℕ)
    (hl : ∀ j ∈ l, i ≤ j) (hacc : ∀ j ∈ acc, j < i) :
    (l.foldl (detectStep data t) acc).filter (fun j => decide (j < i)) = acc := by
  obtain ⟨s, hs, hmem⟩ := foldl_detectStep_append data t l acc
  rw [hs, List.filter_append]
  have h1 : acc.filter (fun j => decide (j < i)) = acc :=
    List.filter_eq_self.mpr (fun j hj => by simpa using hacc j hj)
  have h2 : s.filter (fun j => decide (j < i)) = [] := by
    refine List.filter_eq_nil_iff.mpr (fun j hj => ?_)
    simpa using Nat.not_lt.mpr (hl j (hmem j hj))
  rw [h1, h2, List.append_nil]

/-- C3 (amended): in the peak-detection step, a sample at index `i`
(`2 ≤ i ≤ len − 3`) that strictly exceeds its two neighbours on each side
and exceeds the adaptive threshold is accepted as a peak whenever it lies
STRICTLY MORE than 15 samples after the previously accepted peak (the
source tests `i − lastPeak > 15`); a gap of exactly 15 is rejected. -/
theorem detectPeaks_accepts (data : List ℚ) (i : ℕ) (h2 : 2 ≤ i)
    (hlen : i + 2 < data.length)
    (hpeak : isPeakAt data (calculateThreshold data) i = true)
    (hdist : distOk ((detectPeaks data).filter (fun j => decide (j < i))) i = true) :
    i ∈ detectPeaks data := by
  have hsplit : List.range' 2 (data.length - 4) =
      List.range' 2 (i - 2) ++ i :: List.range' (i + 1) (data.length - 3 - i) := by
    have e1 : data.length - 4 = ((data.length - 3 - i) + 1) + (i - 2) := by omega
    have e2 : 2 + 1 * (i - 2) = i := by omega
    rw [e1, ← List.range'_append, e2, List.range'_succ]
  have hfinal : detectPeaks data =
      (i :: List.range' (i + 1) (data.length - 3 - i)).foldl
        (detectStep data (calculateThreshold data))
        ((List.range' 2 (i - 2)).foldl (detectStep data (calculateThreshold data)) []) := by
    rw [detectPeaks, hsplit, List.foldl_append]
  have hacc1 : ∀ j ∈ (List.range' 2 (i - 2)).foldl
      (detectStep data (calculateThreshold data)) [], j < i := by
    obtain ⟨s, hs, hmem⟩ :=
      foldl_detectStep_append data (calculateThreshold data) (List.range' 2 (i - 2)) []
    rw [hs, List.nil_append]
    intro j hj
    have := List.mem_range'_1.mp (hmem j hj)
    omega
  have hpost : ∀ j ∈ (i :: List.range' (i + 1) (data.length - 3 - i)), i ≤ j := by
    intro j hj
    rcases List.mem_cons.mp hj with h | h
    · omega
    · have := List.mem_range'_1.mp h
      omega
  have hfilter : (detectPeaks data).filter (fun j => decide (j < i)) =
      (List.range' 2 (i - 2)).foldl (detectStep data (calculateThreshold data)) [] := by
    rw [hfinal]
    exact foldl_detectStep_filter data (calculateThreshold data) i _ _ hpost hacc1
  rw [hfilter] at hdist
  have hstep : detectStep data (calculateThreshold data)
      ((List.range' 2 (i - 2)).foldl (detectStep data (calculateThreshold data)) []) i =
      (List.range' 2 (i - 2)).foldl (detectStep data (calculateThreshold data)) [] ++ [i] := by
    simp only [detectStep]
    rw [if_pos]
    rw [hpeak, hdist]
    rfl
  rw [hfinal, List.foldl_cons, hstep]
  obtain ⟨s, hs, _⟩ := foldl_detectStep_append data (calculateThreshold data)
    (List.range' (i + 1) (data.length - 3 - i))
    ((List.range' 2 (i - 2)).foldl (detectStep data (calculateThreshold data)) [] ++ [i])
  rw [hs]
  simp

/-- A 21-sample smoothed buffer with qualifying peak candidates at
indices 2 and 17, exactly 15 apart. -/
def gap15Data : List ℚ :=
  [0, 0, 10, 0, 0, 0, 0, 0, 0, 0, 0, 0, 0, 0, 0, 0, 0, 10, 0, 0, 0]

set_option maxRecDepth 20000 in
/-- C3 counterexample: in `gap15Data` the sample at index 17 strictly
exceeds its two neighbours on each side and the adaptive threshold, its
gap from the previously accepted peak (index 2) is exactly 15, yet
`detectPeaks` rejects it — the scan requires a gap strictly greater
than 15. -/
theorem detectPeaks_gap15_rejected :
    detectPeaks gap15Data = [2] ∧
    isPeakAt gap15Data (calculateThreshold gap15Data) 17 = true ∧
    17 - 2 = 15 ∧ (17 : ℕ) ∉ detectPeaks gap15Data := by
  with_unfolding_all decide

/-- A 5-sample buffer with a single qualifying peak candidate at index 2. -/
def singlePeakData : List ℚ := [0, 0, 10, 0, 0]

/-- Witness for the amended C3 at the concrete buffer `singlePeakData`
and index 2. -/
theorem detectPeaks_accepts_witness :
    2 ≤ 2 ∧ (2 : ℕ) + 2 < singlePeakData.length ∧
    isPeakAt singlePeakData (calculateThreshold singlePeakData) 2 = true ∧
    distOk ((detectPeaks singlePeakData).filter (fun j => decide (j < 2))) 2 = true ∧
    2 ∈ detectPeaks singlePeakData :=
  ⟨by norm_num, by with_unfolding_all decide, by with_unfolding_all decide,
   by with_unfolding_all decide,
   detectPeaks_accepts singlePeakData 2 (by norm_num) (by with_unfolding_all decide)
     (by with_unfolding_all decide) (by with_unfolding_all decide)⟩

/-! ## Theorems: dismissal orchestration -/

/-- C2: while a dismiss or snooze gate is in flight (the `isProcessing`
guard is set) any further `requestDismiss` or `requestSnooze` call
returns the state unchanged (no side effects); consequently two rapid
dismiss requests issued before the first gate resolves collapse to one,
and after the gates of that single dismiss resolve, exactly one
WakeRecord has been appended for the episode. -/
theorem dismiss_reentrancy_one_record :
    (∀ (env : Env) (s : RingState), s.isProcessing = true →
       handleDismiss env s = s ∧ handleSnooze env s = s) ∧
    (∀ (env : Env) (s : RingState) (a : Alarm), s.alarm = some a →
       s.isProcessing = false →
       handleDismiss env (handleDismiss env s) = handleDismiss env s) ∧
    (∀ (env : Env) (s : RingState) (a : Alarm) (flashAnswer : Bool),
       s.alarm = some a → s.isProcessing = false →
       (resolveGate env flashAnswer (resolveGate env flashAnswer (resolveGate env
          flashAnswer (handleDismiss env (handleDismiss env s))))).wakeRecords.length
         = s.wakeRecords.length + 1) := by
  refine ⟨?_, ?_, ?_⟩
  · intro env s h
    constructor <;> (cases halarm : s.alarm <;> simp [handleDismiss, handleSnooze, halarm, h])
  · intro env s a ha hp
    simp [handleDismiss, ha, hp]
  · intro env s a ans ha hp
    have h1 : handleDismiss env s =
        { s with isProcessing := true, vibrating := false,
                 puzzleStartTime := env.now, puzzleErrors := 0,
                 nav := NavTarget.puzzleDismiss
                   (getDifficultyForDismiss s.alarm s.snoozeCount) } := by
      simp [handleDismiss, ha, hp]
    have h2 : handleDismiss env (handleDismiss env s) = handleDismiss env s := by
      simp [handleDismiss, ha, hp]
    rw [h2, h1]
    cases hhr : a.heartRateEnabled <;> cases hfm : a.flashMemoryEnabled <;>
      cases hfc : s.flashCards <;>
        simp [resolveGate, checkNextDismissStep, completeDismiss, ha, hhr, hfm, hfc]

/-- Witness for C2: a fresh ringing episode for `alarmAuto`; the double
dismiss tap followed by gate resolution yields exactly one record. -/
theorem dismiss_reentrancy_one_record_witness :
    (ringStart alarmAuto).alarm = some alarmAuto ∧
    (ringStart alarmAuto).isProcessing = false ∧
    (resolveGate env0 true (resolveGate env0 true (resolveGate env0 true
       (handleDismiss env0 (handleDismiss env0 (ringStart alarmAuto)))))).wakeRecords.length
      = (ringStart alarmAuto).wakeRecords.length + 1 :=
  ⟨rfl, rfl,
   dismiss_reentrancy_one_record.2.2 env0 (ringStart alarmAuto) alarmAuto true rfl rfl⟩

/-- C9: a completed snooze gate increments the session's snoozeCount by
exactly one, schedules one snooze reminder for the configured duration,
ends the episode (navigates home), and the wake-record store is left
unchanged by the entire snooze branch. -/
theorem snooze_writes_no_record (env : Env) (s : RingState) (a : Alarm)
    (flashAnswer : Bool) (ha : s.alarm = some a) (hp : s.isProcessing = false) :
    (resolveGate env flashAnswer (handleSnooze env s)).snoozeCount = s.snoozeCount + 1 ∧
    (resolveGate env flashAnswer (handleSnooze env s)).scheduledSnoozes =
      s.scheduledSnoozes ++ [(a.id, a.snoozeDuration)] ∧
    (handleSnooze env s).wakeRecords = s.wakeRecords ∧
    (resolveGate env flashAnswer (handleSnooze env s)).wakeRecords = s.wakeRecords ∧
    (resolveGate env flashAnswer (handleSnooze env s)).nav = NavTarget.home := by
  have h1 : handleSnooze env s =
      { s with isProcessing := true, vibrating := false,
               puzzleStartTime := env.now, puzzleErrors := 0,
               nav := NavTarget.puzzleSnooze (getDifficultyForSnooze s.snoozeCount) } := by
    simp [handleSnooze, ha, hp]
  rw [h1]
  refine ⟨?_, ?_, ?_, ?_, ?_⟩ <;> simp [resolveGate, completeSnooze, ha]

/-- Witness for C9: a fresh ringing episode for `alarmAuto`. -/
theorem snooze_writes_no_record_witness :
    (ringStart alarmAuto).alarm = some alarmAuto ∧
    (ringStart alarmAuto).isProcessing = false ∧
    ((resolveGate env0 true (handleSnooze env0 (ringStart alarmAuto))).snoozeCount =
       (ringStart alarmAuto).snoozeCount + 1 ∧
     (resolveGate env0 true (handleSnooze env0 (ringStart alarmAuto))).scheduledSnoozes =
       (ringStart alarmAuto).scheduledSnoozes ++ [(alarmAuto.id, alarmAuto.snoozeDuration)] ∧
     (handleSnooze env0 (ringStart alarmAuto)).wakeRecords = (ringStart alarmAuto).wakeRecords ∧
     (resolveGate env0 true (handleSnooze env0 (ringStart alarmAuto))).wakeRecords =
       (ringStart alarmAuto).wakeRecords ∧
     (resolveGate env0 true (handleSnooze env0 (ringStart alarmAuto))).nav = NavTarget.home) :=
  ⟨rfl, rfl, snooze_writes_no_record env0 (ringStart alarmAuto) alarmAuto true rfl rfl⟩

/-! ## Theorems: flash card storage -/

/-- C10: with at most 100 cards stored (an invariant `saveFlashCard`
itself preserves), saving a card whose id is not yet stored fails exactly
when 100 cards are already stored — and an error means nothing is written
back, so the stored list is unchanged — while saving a card whose id
already exists succeeds as an in-place update regardless of the count. -/
theorem saveFlashCard_cap :
    (∀ (cards : List FlashCard) (card : FlashCard),
       (∀ c ∈ cards, c.id ≠ card.id) → cards.length ≤ 100 →
       ((∃ e, saveFlashCard cards card = Except.error e) ↔ cards.length = 100)) ∧
    (∀ (cards : List FlashCard) (card : FlashCard),
       (∃ c ∈ cards, c.id = card.id) →
       ∃ j, cards.findIdx? (fun c => c.id = card.id) = some j ∧
         saveFlashCard cards card = Except.ok (cards.set j card) ∧
         (cards.set j card).length = cards.length) ∧
    (∀ (cards : List FlashCard) (card : FlashCard) (res : List FlashCard),
       cards.length ≤ 100 → saveFlashCard cards card = Except.ok res →
       res.length ≤ 100) := by
  refine ⟨?_, ?_, ?_⟩
  · intro cards card hnew hle
    have hidx : cards.findIdx? (fun c => decide (c.id = card.id)) = none := by
      rw [List.findIdx?_eq_none_iff]
      intro c hc
      simpa using hnew c hc
    constructor
    · intro ⟨e, he⟩
      by_contra hne
      have hlt : cards.length < 100 := by omega
      rw [saveFlashCard, hidx, if_neg (by omega)] at he
      exact Except.noConfusion he
    · intro h100
      refine ⟨"Maximum of 100 flash cards allowed", ?_⟩
      rw [saveFlashCard, hidx, if_pos (by omega)]
  · intro cards card hex
    have hsome : (cards.findIdx? (fun c => decide (c.id = card.id))).isSome := by
      rw [List.findIdx?_isSome, List.any_eq_true]
      obtain ⟨c, hc, he⟩ := hex
      exact ⟨c, hc, by simpa using he⟩
    obtain ⟨j, hj⟩ := Option.isSome_iff_exists.mp hsome
    refine ⟨j, hj, ?_, by simp⟩
    rw [saveFlashCard, hj]
  · intro cards card res hle hok
    rcases hidx : cards.findIdx? (fun c => decide (c.id = card.id)) with _ | j
    · rw [saveFlashCard, hidx] at hok
      by_cases h100 : 100 ≤ cards.length
      · rw [if_pos h100] at hok
        exact Except.noConfusion hok
      · rw [if_neg h100] at hok
        have := Except.ok.inj hok
        subst this
        simp
        omega
    · rw [saveFlashCard, hidx] at hok
      have := Except.ok.inj hok
      subst this
      simpa using hle

/-- A concrete stored card and an update for it, for the C10 witness. -/
def cardA : FlashCard :=
  { id := "c1"
    question := "q"
    answer := "a"
    createdAt := "2026-01-01" }

/-- The updated version of `cardA`, sharing its id. -/
def cardA2 : FlashCard :=
  { id := "c1"
    question := "q2"
    answer := "a2"
    createdAt := "2026-01-02" }

/-- A card with a fresh id, for the C10 witness. -/
def cardB : FlashCard :=
  { id := "c2"
    question := "qb"
    answer := "ab"
    createdAt := "2026-01-03" }

/-- Witness for C10: with one stored card, saving a fresh id does not
error (1 ≠ 100), and saving with an existing id updates in place. -/
theorem saveFlashCard_cap_witness :
    ((∀ c ∈ [cardA], c.id ≠ cardB.id) ∧
     [cardA].length ≤ 100 ∧
     ((∃ e, saveFlashCard [cardA] cardB = Except.error e) ↔ [cardA].length = 100)) ∧
    ((∃ c ∈ [cardA], c.id = cardA2.id) ∧
     ∃ j, [cardA].findIdx? (fun c => c.id = cardA2.id) = some j ∧
       saveFlashCard [cardA] cardA2 = Except.ok ([cardA].set j cardA2) ∧
       ([cardA].set j cardA2).length = [cardA].length) :=
  ⟨⟨by decide, by decide,
    saveFlashCard_cap.1 [cardA] cardB (by decide) (by decide)⟩,
   ⟨⟨cardA, by decide, by decide⟩,
    saveFlashCard_cap.2.1 [cardA] cardA2 ⟨cardA, by decide, by decide⟩⟩⟩

end RiseWell
